import Mathlib

/-
Verification of the hybrid retrieval / conversation-session core of the
pAInt repository.

Embedded sources:
  - src/libs/ai-service/rag/vector_store_pg.py   (PaintVectorStorePG)
  - src/libs/ai_service/app/services/conversation_manager.py (ConversationManager)
  - src/libs/shared/models.py                    (PaintProductModel)

External collaborators (the OpenAI embedding provider, the pgvector
distance operator, and database-failure injection) are modelled as
parameters of the embedded functions, exactly at the call boundaries the
Python code uses them.
-/

namespace PaintCore

/-- Python str.strip removes the ASCII whitespace characters from both
ends; this is the whitespace set Python uses. -/
def pyWhitespaceChar (c : Char) : Bool :=
  c = ' ' || c = '\t' || c = '\n' || c = '\r' || c = '\x0b' || c = '\x0c'

/-- Python str.strip, used by search to decide whether the query has
embeddable text: query.strip() != "". -/
def pyStrip (s : String) : String :=
  String.mk (((s.toList.dropWhile pyWhitespaceChar).reverse.dropWhile
    pyWhitespaceChar).reverse)

/-- Check whether a character list starts with the given character list. -/
def startsWithChars : List Char → List Char → Bool
  | [], _ => true
  | _ :: _, [] => false
  | a :: as, b :: bs => a = b && startsWithChars as bs

/-- Check whether the first character list occurs contiguously inside the
second; this is the meaning of SQL LIKE with a percent sign on both sides
of a wildcard-free pattern. -/
def containsChars (needle : List Char) : List Char → Bool
  | [] => startsWithChars needle []
  | c :: t => startsWithChars needle (c :: t) || containsChars needle t

/-- Row of the paint_products table, from PaintProductModel in
src/libs/shared/models.py.  The embedding is an optional vector; the
vector components and the price are modelled as rationals. -/
structure PaintProduct where
  id : Nat
  name : String
  color : String
  surfaceTypes : List String
  environment : String
  finishType : String
  features : List String
  productLine : String
  price : Option ℚ
  aiSummary : Option String
  usageTags : List String
  embedding : Option (List ℚ)
deriving Repr, DecidableEq

/-- The keyword filters accepted by PaintVectorStorePG.search.  A value of
none models passing Python None (the default). -/
structure SearchFilters where
  environment : Option String
  finishType : Option String
  productLine : Option String
  color : Option String
  features : Option (List String)
  surfaceTypes : Option (List String)
deriving Repr, DecidableEq

/-- The search call with every filter left at its None default. -/
def noFilters : SearchFilters := ⟨none, none, none, none, none, none⟩

/-- Python truthiness of an optional string: None and the empty string are
falsy.  search guards every scalar filter with `if value:`. -/
def strTruthy : Option String → Bool
  | none => false
  | some s => decide (s ≠ "")

/-- Python truthiness of an optional string list: None and the empty list
are falsy.  search guards the list filters with `if value:`. -/
def listTruthy : Option (List String) → Bool
  | none => false
  | some l => decide (l ≠ [])

/-- has_filters in search: any([environment, finish_type, product_line,
color, features, surface_types]). -/
def hasFilters (f : SearchFilters) : Bool :=
  strTruthy f.environment || strTruthy f.finishType || strTruthy f.productLine ||
    strTruthy f.color || listTruthy f.features || listTruthy f.surfaceTypes

/-- has_query in search: query.strip() != "". -/
def hasQuery (q : String) : Bool := decide (pyStrip q ≠ "")

/-- Scalar filter condition: appended to the WHERE clause (or to the
SQLAlchemy query) only when the filter value is truthy, and then it is an
exact equality, for environment, finish_type and product_line. -/
def scalarCond (v : Option String) (attr : String) : Bool :=
  match v with
  | none => true
  | some s => if s = "" then true else decide (attr = s)

/-- Color filter condition: LOWER(color) LIKE LOWER(:color) with the
parameter percent-wrapped, i.e. a case-insensitive substring match. -/
def colorCond (v : Option String) (attr : String) : Bool :=
  match v with
  | none => true
  | some s => if s = "" then true else
      containsChars s.toLower.toList attr.toLower.toList

/-- List filter condition: one `:value = ANY(column)` conjunct per
requested value, so the product array must contain each requested value. -/
def listCond (v : Option (List String)) (attr : List String) : Bool :=
  match v with
  | none => true
  | some l => if l = [] then true else l.all (fun x => attr.contains x)

/-- The metadata part of the WHERE clause, shared by the semantic branch
(raw SQL) and the filter branch (SQLAlchemy) of search; both append the
same six conditions under the same truthiness guards. -/
def matchesMeta (f : SearchFilters) (p : PaintProduct) : Bool :=
  scalarCond f.environment p.environment &&
    scalarCond f.finishType p.finishType &&
    scalarCond f.productLine p.productLine &&
    colorCond f.color p.color &&
    listCond f.features p.features &&
    listCond f.surfaceTypes p.surfaceTypes

/-- similarity_score as selected by the semantic SQL:
1 - (embedding <=> CAST(:query_embedding AS vector)).  The pgvector
cosine-distance operator is external to the repository, so it enters the
model as the parameter dist. -/
def similarity (dist : List ℚ → List ℚ → ℚ) (qe emb : List ℚ) : ℚ :=
  1 - dist qe emb

/-- Full WHERE clause of the semantic/hybrid SQL: embedding IS NOT NULL,
the metadata filters, and the similarity-threshold condition
1 - (embedding <=> :query_embedding) >= :threshold. -/
def matchesWhere (dist : List ℚ → List ℚ → ℚ) (qe : List ℚ) (th : ℚ)
    (f : SearchFilters) (p : PaintProduct) : Bool :=
  match p.embedding with
  | none => false
  | some emb => matchesMeta f p && decide (th ≤ similarity dist qe emb)

/-- The candidate rows of the semantic/hybrid query, before ORDER BY and
LIMIT: the table rows satisfying the WHERE clause. -/
def semanticCandidates (dist : List ℚ → List ℚ → ℚ) (qe : List ℚ) (th : ℚ)
    (f : SearchFilters) (table : List PaintProduct) : List PaintProduct :=
  table.filter (fun p => matchesWhere dist qe th f p)

/-- The ORDER BY key of the semantic SQL: the distance of the row
embedding from the query embedding (rows reaching ORDER BY always have an
embedding, so the default value is never read). -/
def rowDist (dist : List ℚ → List ℚ → ℚ) (qe : List ℚ) (p : PaintProduct) : ℚ :=
  dist qe (p.embedding.getD [])

/-- Relational semantics of `SELECT ... WHERE ... ORDER BY embedding <=>
:query_embedding LIMIT :k`: the returned rows are the first k of some
permutation of the candidate set that is non-decreasing in the distance
key.  The SQL has no secondary sort key, so the order among rows at equal
distance is store-dependent; every such permutation is an admissible
outcome of the query. -/
def SemanticOutcome (dist : List ℚ → List ℚ → ℚ) (qe : List ℚ) (th : ℚ)
    (f : SearchFilters) (k : Nat) (table : List PaintProduct)
    (rows : List PaintProduct) : Prop :=
  ∃ cs : List PaintProduct,
    cs.Perm (semanticCandidates dist qe th f table) ∧
    cs.Sorted (fun a b => rowDist dist qe a ≤ rowDist dist qe b) ∧
    rows = cs.take k

/-- The dictionary built per returned row at the end of search.  The
`or []` defaults on the array columns are identities here (the model keeps
those columns non-null, as the ORM default does), and
`float(row.price) if row.price else None` maps a zero or missing price to
none. -/
structure SearchHit where
  id : Nat
  name : String
  color : String
  surfaceTypes : List String
  environment : String
  finishType : String
  features : List String
  productLine : String
  price : Option ℚ
  aiSummary : Option String
  usageTags : List String
  relevanceScore : ℚ
deriving Repr, DecidableEq

/-- Dictionary conversion of one result row with its similarity score. -/
def toHit (p : PaintProduct) (score : ℚ) : SearchHit :=
  { id := p.id
    name := p.name
    color := p.color
    surfaceTypes := p.surfaceTypes
    environment := p.environment
    finishType := p.finishType
    features := p.features
    productLine := p.productLine
    price := match p.price with
      | none => none
      | some q => if q = 0 then none else some q
    aiSummary := p.aiSummary
    usageTags := p.usageTags
    relevanceScore := score }

/-- Observable outcome of one search call: whether the embedding provider
was called (embeddings.embed_query), whether a query was issued to the
product store, and the returned list.  The Python function always returns
a plain list: the outer `except Exception: return []` turns any provider
or store failure into the empty list, so no error outcome exists in the
return type. -/
structure SearchOutcome where
  embedCalled : Bool
  storeQueried : Bool
  results : List SearchHit
deriving Repr, DecidableEq

/-- Executable model of PaintVectorStorePG.search.

  - embedQ models self.embeddings.embed_query; none models a raised
    provider exception (network/timeout/quota), which the final
    `except Exception` clause catches, returning [].
  - storeFails injects a database failure at the point the store is
    queried (db.execute / Query.all); the same except clause catches it
    and returns [].
  - dist models the pgvector cosine-distance operator.

The semantic branch runs the SQL with the WHERE clause of matchesWhere,
ORDER BY distance, LIMIT k; the tie order the store picks is refined here
to a stable sort (order-sensitive claims are settled against
SemanticOutcome, which admits every tie order).  The filter branch issues
a SQLAlchemy query with the matchesMeta conditions and limit k, scoring
every row 1.0. -/
def searchRun (dist : List ℚ → List ℚ → ℚ) (embedQ : String → Option (List ℚ))
    (table : List PaintProduct) (q : String) (k : Nat) (th : ℚ)
    (f : SearchFilters) (storeFails : Bool) : SearchOutcome :=
  if hasQuery q then
    match embedQ q with
    | none => { embedCalled := true, storeQueried := false, results := [] }
    | some qe =>
      if storeFails then
        { embedCalled := true, storeQueried := true, results := [] }
      else
        { embedCalled := true
          storeQueried := true
          results :=
            ((List.insertionSort
                (fun a b => rowDist dist qe a ≤ rowDist dist qe b)
                (semanticCandidates dist qe th f table)).take k).map
              (fun p => toHit p (similarity dist qe (p.embedding.getD []))) }
  else
    if storeFails then
      { embedCalled := false, storeQueried := true, results := [] }
    else
      { embedCalled := false
        storeQueried := true
        results :=
          ((table.filter (fun p => matchesMeta f p)).take k).map
            (fun p => toHit p 1) }

/-- _create_product_content: the searchable text built for one product.
Optional sections are appended only when the field is Python-truthy
(non-empty list, non-empty string). -/
def createProductContent (p : PaintProduct) : String :=
  String.intercalate "\n"
    ([ "Product: " ++ p.name
     , "Color: " ++ p.color
     , "Environment: " ++ p.environment
     , "Finish: " ++ p.finishType
     , "Product Line: " ++ p.productLine ]
     ++ (if p.surfaceTypes = [] then [] else
          ["Surface Types: " ++ String.intercalate ", " p.surfaceTypes])
     ++ (if p.features = [] then [] else
          ["Features: " ++ String.intercalate ", " p.features])
     ++ (match p.aiSummary with
         | none => []
         | some s => if s = "" then [] else ["Summary: " ++ s])
     ++ (if p.usageTags = [] then [] else
          ["Usage Tags: " ++ String.intercalate ", " p.usageTags]))

/-- The product selection of populate_embeddings: every product under
force, otherwise only the products whose embedding is absent. -/
def selectedProducts (force : Bool) (table : List PaintProduct) :
    List PaintProduct :=
  if force then table else table.filter (fun p => p.embedding = none)

/-- Structural recursion behind the batching loop: the fuel only bounds
the recursion depth and is chosen at least the list length, so it never
changes the result. -/
def batchesAux {α : Type} : Nat → List α → List (List α)
  | _, [] => []
  | 0, _ :: _ => []
  | fuel + 1, a :: t => (a :: t).take 10 :: batchesAux fuel ((a :: t).drop 10)

/-- The batching loop `for i in range(0, len(products), batch_size)` with
the fixed batch_size = 10. -/
def batches10 {α : Type} (l : List α) : List (List α) :=
  batchesAux l.length l

/-- embeddings.embed_documents on a batch of contents: one embedding per
document, or a raised exception (none) if the provider fails on any
document of the batch. -/
def allEmbeds (embed : String → Option (List ℚ)) :
    List String → Option (List (List ℚ))
  | [] => some []
  | d :: ds =>
    match embed d, allEmbeds embed ds with
    | some e, some es => some (e :: es)
    | _, _ => none

/-- db.commit() after a batch: the embedding assignments made on the
fetched rows become durable, keyed by product id. -/
def commitBatch (table : List PaintProduct) (upds : List (Nat × List ℚ)) :
    List PaintProduct :=
  table.map (fun p =>
    match upds.lookup p.id with
    | some e => { p with embedding := some e }
    | none => p)

/-- The batch loop of populate_embeddings.  Each batch embeds its contents
and commits; a provider exception inside a batch reaches the enclosing
`except`, which rolls back the uncommitted batch and re-raises, so the
run ends with no processed count (none) and the state as of the last
commit. -/
def goBatches (embed : String → Option (List ℚ)) :
    List (List PaintProduct) → Nat → List PaintProduct →
      Option Nat × List PaintProduct
  | [], cnt, table => (some cnt, table)
  | b :: bs, cnt, table =>
    match allEmbeds embed (b.map createProductContent) with
    | none => (none, table)
    | some es =>
      goBatches embed bs (cnt + b.length)
        (commitBatch table ((b.map (fun p => p.id)).zip es))

/-- PaintVectorStorePG.populate_embeddings: select the products to
process, embed them in batches of 10 committing after each batch, and
return the processed count; a failure aborts the run (first component
none) leaving the table at the state of the last commit. -/
def populateEmbeddings (embed : String → Option (List ℚ)) (force : Bool)
    (table : List PaintProduct) : Option Nat × List PaintProduct :=
  goBatches embed (batches10 (selectedProducts force table)) 0 table

/-- Role of one in-memory LangChain message: HumanMessage, AIMessage, or
any other BaseMessage subtype (which both the serializer and the loader
skip). -/
inductive MsgRole where
  | human : MsgRole
  | ai : MsgRole
  | otherRole : MsgRole
deriving Repr, DecidableEq

/-- One in-memory message of a ConversationBufferMemory:
memory.chat_memory.messages.  kwTimestamp models
message.additional_kwargs.get("timestamp"); no code in the repository
ever stores that key, so every message the program builds carries none
here. -/
structure ChatMsg where
  role : MsgRole
  content : String
  kwTimestamp : Option String
deriving Repr, DecidableEq

/-- One serialized message dictionary as written into session_data:
the literal with keys type, content, timestamp. -/
structure StoredMsg where
  type : String
  content : String
  timestamp : Option String
deriving Repr, DecidableEq

/-- The session_data JSON document written by save_session_to_database:
the messages list and message_count = len(messages). -/
structure SessionData where
  messages : List StoredMsg
  messageCount : Nat
deriving Repr, DecidableEq

/-- Serialization loop of save_session_to_database: HumanMessage rows
become type human, AIMessage rows become type ai, any other message is
skipped, and the timestamp field is read from additional_kwargs. -/
def serializeMessages : List ChatMsg → List StoredMsg
  | [] => []
  | m :: t =>
    match m.role with
    | MsgRole.human => ⟨"human", m.content, m.kwTimestamp⟩ :: serializeMessages t
    | MsgRole.ai => ⟨"ai", m.content, m.kwTimestamp⟩ :: serializeMessages t
    | MsgRole.otherRole => serializeMessages t

/-- The full session_data value one save writes for a memory. -/
def sessionDataOf (msgs : List ChatMsg) : SessionData :=
  ⟨serializeMessages msgs, (serializeMessages msgs).length⟩

/-- Deserialization loop of _load_memory_from_database: a type field of
human or ai is rebuilt as HumanMessage(content) or AIMessage(content)
(additional_kwargs, hence the timestamp, is not restored); anything else
hits the `continue`. -/
def loadMessages : List StoredMsg → List ChatMsg
  | [] => []
  | s :: t =>
    if s.type = "human" then ⟨MsgRole.human, s.content, none⟩ :: loadMessages t
    else if s.type = "ai" then ⟨MsgRole.ai, s.content, none⟩ :: loadMessages t
    else loadMessages t

/-- Modelled from the spec: one row of the chat_sessions table, carrying
the opaque session uuid, the owning user id, and the session_data
document (none for a NULL or empty document).  The migration SQL defining
the table is not under src/, and the ORM model in src/libs/shared/models.py
omits the session_uuid column the manager queries; the spec (§3,
Conversation Session) fixes identity as the (session id, owning user id)
pair, which is exactly what ConversationManager reads and writes. -/
structure SessionRow where
  sessionUuid : String
  userId : Nat
  sessionData : Option SessionData
deriving Repr, DecidableEq

/-- The chat_sessions table. -/
abbrev SessionStore := List SessionRow

/-- The query both load and save issue:
query(ChatSessionModel).filter(session_uuid == s, user_id == u).first().
Both key columns are always constrained together. -/
def findSession (store : SessionStore) (s : String) (u : Nat) :
    Option SessionRow :=
  store.find? (fun r => r.sessionUuid = s && r.userId = u)

/-- ConversationManager._load_memory_from_database.  dbFails injects a
database failure inside the try block; the except clause logs and returns
a fresh empty memory.  A missing row, a row of another user, or an empty
session_data document all yield the empty memory as well. -/
def loadMemoryRun (store : SessionStore) (s : String) (u : Nat)
    (dbFails : Bool) : List ChatMsg :=
  if dbFails then []
  else
    match findSession store s u with
    | some r =>
      match r.sessionData with
      | some d => loadMessages d.messages
      | none => []
    | none => []

/-- In-place update of the first row the save query found (`.first()`
then assignment of session_data followed by commit). -/
def updateFirstSession : SessionStore → String → Nat → SessionData →
    SessionStore
  | [], _, _, _ => []
  | r :: rs, s, u, d =>
    if r.sessionUuid = s ∧ r.userId = u then
      { r with sessionData := some d } :: rs
    else
      r :: updateFirstSession rs s u d

/-- ConversationManager.save_session_to_database.  The whole body sits in
one try block: fail injects any failure before the commit completes, and
the except clause rolls the transaction back (leaving the store as it
was) and returns False.  Otherwise the serialized history is written over
the existing (session, user) row if the scoped query finds one, or a new
row is inserted, and the call returns True. -/
def saveSessionRun (store : SessionStore) (s : String) (u : Nat)
    (msgs : List ChatMsg) (fail : Bool) : Bool × SessionStore :=
  if fail then (false, store)
  else
    match findSession store s u with
    | some _ => (true, updateFirstSession store s u (sessionDataOf msgs))
    | none => (true, store ++ [⟨s, u, some (sessionDataOf msgs)⟩])

/-- The rows of one user, i.e. everything whose existence or content the
session interface can reveal to that user. -/
def userView (u : Nat) (store : SessionStore) : SessionStore :=
  store.filter (fun r => r.userId = u)

/-- A minimal product row: id, a name derived from the id, empty
attributes, and the given embedding. -/
def basicProduct (n : Nat) (emb : Option (List ℚ)) : PaintProduct :=
  ⟨n, toString n, "", [], "", "", [], "", none, none, [], emb⟩

/-- A degenerate distance operator under which every pair of embeddings is
at distance zero: every candidate ties. -/
def constDist : List ℚ → List ℚ → ℚ := fun _ _ => 0

/-- A healthy embedding provider. -/
def embedOk : String → Option (List ℚ) := fun _ => some [0]

/-- One-product table whose single product is embedded. -/
def tableOne : List PaintProduct := [basicProduct 1 (some [0])]

/-- Two embedded products, ids 1 and 2, otherwise identical. -/
def tableTie : List PaintProduct :=
  [basicProduct 1 (some [0]), basicProduct 2 (some [0])]

/-- Eleven products without embeddings: more than one batch of 10, so a
failure in the first batch leaves a second batch unreached. -/
def tableEleven : List PaintProduct :=
  (List.range 11).map (fun n => basicProduct (n + 1) none)

/-- A provider that fails exactly on the content of product 1 and
succeeds on every other document. -/
def embedFailOnOne : String → Option (List ℚ) :=
  fun s => if s = createProductContent (basicProduct 1 none) then none
    else some [0]

/-- A one-turn conversation history. -/
def msgsOi : List ChatMsg := [⟨MsgRole.human, "Oi", none⟩]

/-- A two-turn conversation history with no timestamps, as the program
builds them. -/
def msgsRoundtrip : List ChatMsg :=
  [⟨MsgRole.human, "Oi", none⟩, ⟨MsgRole.ai, "Ola", none⟩]

/-- A store holding session s for user 1 with one persisted turn. -/
def storeUserOne : SessionStore := [⟨"s", 1, some (sessionDataOf msgsOi)⟩]

/-- A store in which session s exists but belongs to user 2. -/
def storeOtherUser : SessionStore := [⟨"s", 2, some (sessionDataOf msgsOi)⟩]

/-- A store holding the prior save of the two-turn history for
(s, user 1). -/
def storeRoundtrip : SessionStore :=
  [⟨"s", 1, some (sessionDataOf msgsRoundtrip)⟩]

/-- C5.  For every search call whose query contains no embeddable text
(empty or whitespace-only), regardless of which filters are present, the
Embedding Provider is never called: filter mode is executed as a
database-level query only. -/
theorem empty_query_skips_provider (dist : List ℚ → List ℚ → ℚ)
    (embedQ : String → Option (List ℚ)) (table : List PaintProduct)
    (q : String) (k : Nat) (th : ℚ) (f : SearchFilters) (sf : Bool)
    (h : pyStrip q = "") :
    (searchRun dist embedQ table q k th f sf).embedCalled = false ∧
      (searchRun dist embedQ table q k th f sf).storeQueried = true := by
  cases sf <;> simp [searchRun, hasQuery, h]

/-- Witness for C5: a whitespace-only query with filters present skips
the provider and hits the store. -/
theorem empty_query_skips_provider_witness :
    pyStrip " \t " = "" ∧
      ((searchRun constDist embedOk tableOne " \t " 5 (7/10)
          ⟨some "internal", none, none, none, none, none⟩ false).embedCalled
            = false ∧
        (searchRun constDist embedOk tableOne " \t " 5 (7/10)
          ⟨some "internal", none, none, none, none, none⟩ false).storeQueried
            = true) :=
  ⟨by decide, empty_query_skips_provider constDist embedOk tableOne " \t " 5
    (7/10) ⟨some "internal", none, none, none, none, none⟩ false (by decide)⟩

/-- C9 counterexample.  search performs no input validation: called with
k = 0 and threshold = 7, both outside their documented ranges ([1,20] and
[0,1]), the Embedding Provider is still called and the Product Store is
still queried, so the claim that malformed inputs are rejected before any
store or provider call is false. -/
theorem search_no_validation_cex :
    (searchRun constDist embedOk tableOne "blue" 0 7 noFilters
        false).embedCalled = true ∧
      (searchRun constDist embedOk tableOne "blue" 0 7 noFilters
        false).storeQueried = true := by
  decide

/-- C9 amended.  The engine validates nothing: for every limit and every
threshold, valid or not, a non-empty query always reaches the Embedding
Provider and then the Product Store (range checks exist only in the HTTP
request schemas, outside the engine). -/
theorem search_forwards_unvalidated_inputs (dist : List ℚ → List ℚ → ℚ)
    (qe : List ℚ) (table : List PaintProduct) (q : String) (k : Nat) (th : ℚ)
    (f : SearchFilters) (h : hasQuery q = true) :
    (searchRun dist (fun _ => some qe) table q k th f false).embedCalled
        = true ∧
      (searchRun dist (fun _ => some qe) table q k th f false).storeQueried
        = true := by
  simp [searchRun, h]

/-- Witness for the amended C9, at an out-of-range limit and threshold. -/
theorem search_forwards_unvalidated_inputs_witness :
    hasQuery "blue" = true ∧
      ((searchRun constDist (fun _ => some [0]) tableOne "blue" 1000 (-3)
          noFilters false).embedCalled = true ∧
        (searchRun constDist (fun _ => some [0]) tableOne "blue" 1000 (-3)
          noFilters false).storeQueried = true) :=
  ⟨by decide, search_forwards_unvalidated_inputs constDist [0] tableOne
    "blue" 1000 (-3) noFilters (by decide)⟩

/-- C1 counterexample.  A Product Store failure during search is not
propagated as a StoreUnavailable error: the same call that returns one
hit on a healthy store returns the plain empty result set when the store
fails, and a Session Store failure during session loading likewise yields
the empty memory a nonexistent session would yield, even though the row
holds history.  Store unavailability is silently swallowed in both
places. -/
theorem search_swallows_store_failure_cex :
    (searchRun constDist embedOk tableOne "blue" 5 0 noFilters
        true).results = [] ∧
      (searchRun constDist embedOk tableOne "blue" 5 0 noFilters
        false).results ≠ [] ∧
      loadMemoryRun storeUserOne "s" 1 true = [] ∧
      loadMemoryRun storeUserOne "s" 1 false ≠ [] := by
  refine ⟨rfl, ?_, rfl, by decide⟩
  simp [searchRun, hasQuery, pyStrip, pyWhitespaceChar, embedOk,
    semanticCandidates, tableOne, matchesWhere, matchesMeta, similarity,
    constDist, noFilters, scalarCond, colorCond, listCond, basicProduct,
    List.insertionSort]

/-- C1 amended.  Product Store failures during search are caught and
degrade to the empty result set, exactly like Embedding Provider
failures, and Session Store failures during session loading degrade to an
empty memory: store unavailability is silently swallowed, never surfaced
as a distinct error. -/
theorem store_failure_degrades_to_empty (dist : List ℚ → List ℚ → ℚ)
    (embedQ : String → Option (List ℚ)) (table : List PaintProduct)
    (q : String) (k : Nat) (th : ℚ) (f : SearchFilters) :
    (searchRun dist embedQ table q k th f true).results = [] ∧
      (hasQuery q = true → embedQ q = none →
        ∀ sf : Bool, (searchRun dist embedQ table q k th f sf).results = []) ∧
      (∀ (store : SessionStore) (s : String) (u : Nat),
        loadMemoryRun store s u true = []) := by
  refine ⟨?_, ?_, fun store s u => rfl⟩
  · by_cases hq : hasQuery q
    · cases he : embedQ q <;> simp [searchRun, hq, he]
    · simp [searchRun, hq]
  · intro hq he sf
    cases sf <;> simp [searchRun, hq, he]

/-- Witness for the amended C1: a failing provider on a non-empty query
yields the empty result set. -/
theorem store_failure_degrades_to_empty_witness :
    hasQuery "blue" = true ∧
      (searchRun constDist (fun _ => none) tableOne "blue" 5 (7/10)
        noFilters false).results = [] :=
  ⟨by decide, (store_failure_degrades_to_empty constDist (fun _ => none)
    tableOne "blue" 5 (7/10) noFilters).2.1 (by decide) rfl false⟩

/-- Under the constant-zero distance every list is sorted by the distance
key: every pair of rows ties. -/
theorem sorted_constDist (qe : List ℚ) (l : List PaintProduct) :
    l.Sorted (fun a b => rowDist constDist qe a ≤ rowDist constDist qe b) := by
  induction l with
  | nil => exact List.sorted_nil
  | cons a t ih => exact List.sorted_cons.mpr ⟨fun b _ => le_refl _, ih⟩

/-- Candidate set of the two-product tie table: both products pass the
WHERE clause. -/
theorem candidatesTie_eq :
    semanticCandidates constDist [0] 0 noFilters tableTie =
      [basicProduct 1 (some [0]), basicProduct 2 (some [0])] := by
  simp [semanticCandidates, tableTie, matchesWhere, matchesMeta, similarity,
    constDist, noFilters, scalarCond, colorCond, listCond, basicProduct]

/-- C6.  For every semantic or hybrid search call and every similarity
threshold, a product whose embedding is absent never appears in the
results: the WHERE clause excludes it from candidacy outright. -/
theorem missing_embedding_excluded (dist : List ℚ → List ℚ → ℚ)
    (qe : List ℚ) (th : ℚ) (f : SearchFilters) (k : Nat)
    (table rows : List PaintProduct)
    (h : SemanticOutcome dist qe th f k table rows) :
    ∀ p ∈ rows, p.embedding ≠ none := by
  obtain ⟨cs, hperm, -, hrows⟩ := h
  subst hrows
  intro p hp hnone
  have hcs : p ∈ cs := List.take_subset k cs hp
  have hcand : p ∈ semanticCandidates dist qe th f table :=
    hperm.mem_iff.mp hcs
  rw [semanticCandidates, List.mem_filter] at hcand
  rw [matchesWhere, hnone] at hcand
  exact absurd hcand.2 (by simp)

/-- Witness for C6: a concrete admissible outcome over the tie table, on
which every returned product indeed carries an embedding. -/
theorem missing_embedding_excluded_witness :
    SemanticOutcome constDist [0] 0 noFilters 2 tableTie
        [basicProduct 1 (some [0]), basicProduct 2 (some [0])] ∧
      ∀ p ∈ [basicProduct 1 (some [0]), basicProduct 2 (some [0])],
        p.embedding ≠ none :=
  have h : SemanticOutcome constDist [0] 0 noFilters 2 tableTie
      [basicProduct 1 (some [0]), basicProduct 2 (some [0])] :=
    ⟨[basicProduct 1 (some [0]), basicProduct 2 (some [0])],
      by rw [candidatesTie_eq], sorted_constDist [0] _, rfl⟩
  ⟨h, missing_embedding_excluded constDist [0] 0 noFilters 2 tableTie _ h⟩

/-- C7.  For every hybrid-mode search call (non-empty query with filters
present), each returned product satisfies every supplied filter predicate
(the AND of the six metadata conditions) and has similarity at or above
the relevance threshold: the threshold condition sits in the same WHERE
clause and is never bypassed. -/
theorem hybrid_applies_filters_and_threshold (dist : List ℚ → List ℚ → ℚ)
    (qe : List ℚ) (th : ℚ) (f : SearchFilters) (k : Nat)
    (table rows : List PaintProduct) (hf : hasFilters f = true)
    (h : SemanticOutcome dist qe th f k table rows) :
    ∀ p ∈ rows, matchesMeta f p = true ∧
      ∃ emb, p.embedding = some emb ∧ th ≤ similarity dist qe emb := by
  obtain ⟨cs, hperm, -, hrows⟩ := h
  subst hrows
  intro p hp
  have hcs : p ∈ cs := List.take_subset k cs hp
  have hcand : p ∈ semanticCandidates dist qe th f table :=
    hperm.mem_iff.mp hcs
  rw [semanticCandidates, List.mem_filter] at hcand
  have hmw := hcand.2
  rw [matchesWhere] at hmw
  cases hemb : p.embedding with
  | none => rw [hemb] at hmw; exact absurd hmw (by simp)
  | some emb =>
    rw [hemb] at hmw
    simp only [Bool.and_eq_true, decide_eq_true_eq] at hmw
    exact ⟨hmw.1, emb, rfl, hmw.2⟩

/-- Witness for C7: a hybrid call (environment filter active) over a
one-product table. -/
theorem hybrid_applies_filters_and_threshold_witness :
    hasFilters ⟨some "internal", none, none, none, none, none⟩ = true ∧
      SemanticOutcome constDist [0] 0
          ⟨some "internal", none, none, none, none, none⟩ 5
          [basicProduct 3 (some [0])] [] ∧
      ∀ p ∈ ([] : List PaintProduct),
        matchesMeta ⟨some "internal", none, none, none, none, none⟩ p = true ∧
          ∃ emb, p.embedding = some emb ∧ 0 ≤ similarity constDist [0] emb :=
  have h : SemanticOutcome constDist [0] 0
      ⟨some "internal", none, none, none, none, none⟩ 5
      [basicProduct 3 (some [0])] [] :=
    ⟨[], by
      simp [semanticCandidates, matchesWhere, matchesMeta, similarity,
        constDist, scalarCond, colorCond, listCond, basicProduct],
      List.sorted_nil, rfl⟩
  ⟨by decide, h, hybrid_applies_filters_and_threshold constDist [0] 0
    ⟨some "internal", none, none, none, none, none⟩ 5
    [basicProduct 3 (some [0])] [] (by decide) h⟩

/-- C3 counterexample.  The semantic SQL orders only by the distance key:
for a table with two products at equal distance from the query embedding,
both orders of the tied pair are admissible outcomes of the very same
call, so ties are not broken by ascending id and the result is not
deterministic for identical inputs. -/
theorem semantic_tie_order_nondeterministic_cex :
    SemanticOutcome constDist [0] 0 noFilters 2 tableTie
        [basicProduct 1 (some [0]), basicProduct 2 (some [0])] ∧
      SemanticOutcome constDist [0] 0 noFilters 2 tableTie
        [basicProduct 2 (some [0]), basicProduct 1 (some [0])] ∧
      [basicProduct 1 (some [0]), basicProduct 2 (some [0])] ≠
        [basicProduct 2 (some [0]), basicProduct 1 (some [0])] := by
  refine ⟨⟨[basicProduct 1 (some [0]), basicProduct 2 (some [0])],
      by rw [candidatesTie_eq], sorted_constDist [0] _, rfl⟩,
    ⟨[basicProduct 2 (some [0]), basicProduct 1 (some [0])],
      ?_, sorted_constDist [0] _, rfl⟩, by decide⟩
  rw [candidatesTie_eq]
  exact List.Perm.swap _ _ _

/-- C3 amended.  Every admissible outcome of a semantic or hybrid query
has non-increasing similarity scores and at most limit rows; the order
among rows of equal similarity, however, is store-dependent (no secondary
sort key exists), so tie order is unspecified rather than
id-ascending-deterministic. -/
theorem semantic_sorted_and_truncated (dist : List ℚ → List ℚ → ℚ)
    (qe : List ℚ) (th : ℚ) (f : SearchFilters) (k : Nat)
    (table rows : List PaintProduct)
    (h : SemanticOutcome dist qe th f k table rows) :
    (rows.map (fun p => similarity dist qe (p.embedding.getD []))).Pairwise
        (fun a b => b ≤ a) ∧
      rows.length ≤ k := by
  obtain ⟨cs, -, hsort, hrows⟩ := h
  subst hrows
  constructor
  · have h1 : (cs.take k).Pairwise
        (fun a b => rowDist dist qe a ≤ rowDist dist qe b) :=
      List.Pairwise.sublist (List.take_sublist k cs) hsort
    rw [List.pairwise_map]
    refine h1.imp ?_
    intro a b hab
    exact sub_le_sub_left hab 1
  · exact List.length_take_le k cs

/-- Witness for the amended C3, at the tie-table outcome. -/
theorem semantic_sorted_and_truncated_witness :
    SemanticOutcome constDist [0] 0 noFilters 2 tableTie
        [basicProduct 2 (some [0]), basicProduct 1 (some [0])] ∧
      (([basicProduct 2 (some [0]), basicProduct 1 (some [0])].map
          (fun p => similarity constDist [0] (p.embedding.getD []))).Pairwise
            (fun a b => b ≤ a) ∧
        ([basicProduct 2 (some [0]),
          basicProduct 1 (some [0])] : List PaintProduct).length ≤ 2) :=
  have h : SemanticOutcome constDist [0] 0 noFilters 2 tableTie
      [basicProduct 2 (some [0]), basicProduct 1 (some [0])] :=
    ⟨[basicProduct 2 (some [0]), basicProduct 1 (some [0])],
      by rw [candidatesTie_eq]; exact List.Perm.swap _ _ _,
      sorted_constDist [0] _, rfl⟩
  ⟨h, semantic_sorted_and_truncated constDist [0] 0 noFilters 2 tableTie _ h⟩

/-- The rows outside one (session uuid, user id) key. -/
def otherRows (s : String) (u : Nat) (store : SessionStore) : SessionStore :=
  store.filter (fun r => !(r.sessionUuid = s && r.userId = u))

/-- If no row carries the pair key, the scoped query finds nothing. -/
theorem findSession_eq_none (store : SessionStore) (s : String) (u : Nat)
    (h : ∀ r ∈ store, r.sessionUuid = s → r.userId ≠ u) :
    findSession store s u = none := by
  rw [findSession, List.find?_eq_none]
  intro r hr
  simp only [Bool.and_eq_true, decide_eq_true_eq, not_and]
  exact fun hs => h r hr hs

/-- Updating the first row the scoped query finds makes the scoped query
see exactly that row with the new document. -/
theorem findSession_update (store : SessionStore) (s : String) (u : Nat)
    (d : SessionData) (r : SessionRow) (hf : findSession store s u = some r) :
    findSession (updateFirstSession store s u d) s u =
      some { r with sessionData := some d } := by
  induction store with
  | nil => simp [findSession] at hf
  | cons x t ih =>
    by_cases hx : x.sessionUuid = s ∧ x.userId = u
    · rw [findSession, List.find?_cons_of_pos] at hf
      · cases hf
        rw [updateFirstSession, if_pos hx, findSession,
          List.find?_cons_of_pos]
        simp [hx.1, hx.2]
      · simp [hx.1, hx.2]
    · rw [findSession, List.find?_cons_of_neg] at hf
      · rw [updateFirstSession, if_neg hx, findSession,
          List.find?_cons_of_neg]
        · exact ih hf
        · simp only [Bool.and_eq_true, decide_eq_true_eq]
          exact hx
      · simp only [Bool.and_eq_true, decide_eq_true_eq]
        exact hx

/-- The in-place update touches no row outside the pair key. -/
theorem otherRows_update (store : SessionStore) (s : String) (u : Nat)
    (d : SessionData) :
    otherRows s u (updateFirstSession store s u d) = otherRows s u store := by
  induction store with
  | nil => rfl
  | cons x t ih =>
    by_cases hx : x.sessionUuid = s ∧ x.userId = u
    · rw [updateFirstSession, if_pos hx]
      simp [otherRows, List.filter_cons, hx.1, hx.2]
    · rw [updateFirstSession, if_neg hx]
      by_cases hs : x.sessionUuid = s
      · have hu : ¬ x.userId = u := fun hu => hx ⟨hs, hu⟩
        simpa [otherRows, List.filter_cons, hs, hu] using ih
      · simpa [otherRows, List.filter_cons, hs] using ih

/-- After an append, the scoped query that previously found nothing finds
the appended row. -/
theorem findSession_append (store : SessionStore) (s : String) (u : Nat)
    (row : SessionRow) (hk : row.sessionUuid = s ∧ row.userId = u)
    (hf : findSession store s u = none) :
    findSession (store ++ [row]) s u = some row := by
  induction store with
  | nil =>
    rw [List.nil_append, findSession, List.find?_cons_of_pos]
    simp [hk.1, hk.2]
  | cons x t ih =>
    rw [findSession, List.find?_eq_none] at hf
    have hx : ¬ (x.sessionUuid = s ∧ x.userId = u) := by
      have := hf x (List.mem_cons_self x t)
      simpa using this
    rw [List.cons_append, findSession, List.find?_cons_of_neg]
    · refine ih ?_
      rw [findSession, List.find?_eq_none]
      exact fun r hr => hf r (List.mem_cons_of_mem x hr)
    · simp only [Bool.and_eq_true, decide_eq_true_eq]
      exact hx

/-- C10.  save_session_to_database is atomic and non-throwing: any
failure inside the call leaves the store exactly as it was and returns
False instead of raising; on success it returns True, the scoped (session,
user) row afterwards holds the full serialized history, and every row
outside that key is untouched. -/
theorem save_session_atomic_nonthrowing (store : SessionStore) (s : String)
    (u : Nat) (msgs : List ChatMsg) :
    saveSessionRun store s u msgs true = (false, store) ∧
      (saveSessionRun store s u msgs false).1 = true ∧
      (∃ r, findSession (saveSessionRun store s u msgs false).2 s u = some r ∧
        r.sessionData = some (sessionDataOf msgs)) ∧
      otherRows s u (saveSessionRun store s u msgs false).2 =
        otherRows s u store := by
  refine ⟨rfl, ?_, ?_, ?_⟩
  · rw [saveSessionRun]
    cases hf : findSession store s u <;> simp [hf]
  · rw [saveSessionRun]
    cases hf : findSession store s u with
    | none =>
      simp only [if_neg Bool.false_ne_true]
      refine ⟨⟨s, u, some (sessionDataOf msgs)⟩, ?_, rfl⟩
      exact findSession_append store s u _ ⟨rfl, rfl⟩ hf
    | some r =>
      simp only [if_neg Bool.false_ne_true]
      refine ⟨{ r with sessionData := some (sessionDataOf msgs) }, ?_, rfl⟩
      exact findSession_update store s u _ r hf
  · rw [saveSessionRun]
    cases hf : findSession store s u with
    | none =>
      simp only [if_neg Bool.false_ne_true]
      simp [otherRows, List.filter_append]
    | some r =>
      simp only [if_neg Bool.false_ne_true]
      exact otherRows_update store s u _

/-- The store with every row of one session id removed: the world in
which that session id does not exist at all. -/
def eraseSession (s : String) (store : SessionStore) : SessionStore :=
  store.filter (fun r => decide (r.sessionUuid ≠ s))

/-- Removing rows of a session id owned only by other users does not
change what one user can see. -/
theorem userView_erase (store : SessionStore) (s : String) (u : Nat)
    (h : ∀ r ∈ store, r.sessionUuid = s → r.userId ≠ u) :
    userView u (eraseSession s store) = userView u store := by
  induction store with
  | nil => rfl
  | cons x t ih =>
    have ht : ∀ r ∈ t, r.sessionUuid = s → r.userId ≠ u :=
      fun r hr => h r (List.mem_cons_of_mem x hr)
    by_cases hs : x.sessionUuid = s
    · have hu : ¬ x.userId = u := h x (List.mem_cons_self x t) hs
      simpa [eraseSession, userView, List.filter_cons, hs, hu] using ih ht
    · by_cases hu : x.userId = u
      · simpa [eraseSession, userView, List.filter_cons, hs, hu] using ih ht
      · simpa [eraseSession, userView, List.filter_cons, hs, hu] using ih ht

/-- The user view distributes over append. -/
theorem userView_append (u : Nat) (l₁ l₂ : SessionStore) :
    userView u (l₁ ++ l₂) = userView u l₁ ++ userView u l₂ := by
  simp [userView, List.filter_append]

/-- C2.  When a session id exists but every row carrying it belongs to a
different user, both load and save behave exactly as on a store in which
the session id does not exist at all: the scoped query filters by both
key columns, so the returned memory, the save result flag, and the rows
the user can observe afterwards are identical in the two worlds — no
content or existence information of the other user leaks. -/
theorem cross_user_lookup_acts_as_nonexistent (store : SessionStore)
    (s : String) (u : Nat) (msgs : List ChatMsg) (fail dbF : Bool)
    (h : ∀ r ∈ store, r.sessionUuid = s → r.userId ≠ u) :
    loadMemoryRun store s u dbF = loadMemoryRun (eraseSession s store) s u dbF ∧
      (saveSessionRun store s u msgs fail).1 =
        (saveSessionRun (eraseSession s store) s u msgs fail).1 ∧
      userView u (saveSessionRun store s u msgs fail).2 =
        userView u (saveSessionRun (eraseSession s store) s u msgs fail).2 := by
  have hA : findSession store s u = none := findSession_eq_none store s u h
  have hB : findSession (eraseSession s store) s u = none :=
    findSession_eq_none _ s u (fun r hr => h r (List.mem_of_mem_filter hr))
  refine ⟨?_, ?_, ?_⟩
  · cases dbF with
    | true => rfl
    | false => simp [loadMemoryRun, hA, hB]
  · cases fail with
    | true => rfl
    | false => simp [saveSessionRun, hA, hB]
  · cases fail with
    | true =>
      simpa [saveSessionRun] using (userView_erase store s u h).symm
    | false =>
      simp only [saveSessionRun, if_neg Bool.false_ne_true, hA, hB]
      rw [userView_append, userView_append, userView_erase store s u h]

/-- Witness for C2: session s exists for user 2 and is looked up by
user 1. -/
theorem cross_user_lookup_acts_as_nonexistent_witness :
    (∀ r ∈ storeOtherUser, r.sessionUuid = "s" → r.userId ≠ 1) ∧
      (loadMemoryRun storeOtherUser "s" 1 false =
          loadMemoryRun (eraseSession "s" storeOtherUser) "s" 1 false ∧
        (saveSessionRun storeOtherUser "s" 1 msgsOi false).1 =
          (saveSessionRun (eraseSession "s" storeOtherUser) "s" 1 msgsOi
            false).1 ∧
        userView 1 (saveSessionRun storeOtherUser "s" 1 msgsOi false).2 =
          userView 1 (saveSessionRun (eraseSession "s" storeOtherUser) "s" 1
            msgsOi false).2) :=
  ⟨by decide, cross_user_lookup_acts_as_nonexistent storeOtherUser "s" 1
    msgsOi false false (by decide)⟩

/-- Serializing after loading reproduces the serialized form, provided the
original memory carried no additional_kwargs timestamp (no code in the
repository ever stores one): the only information the loader drops is
that timestamp, everything else round-trips. -/
theorem serialize_load_serialize (msgs : List ChatMsg)
    (h : ∀ m ∈ msgs, m.kwTimestamp = none) :
    serializeMessages (loadMessages (serializeMessages msgs)) =
      serializeMessages msgs := by
  induction msgs with
  | nil => rfl
  | cons m t ih =>
    have hm := h m (List.mem_cons_self m t)
    have ht := fun x hx => h x (List.mem_cons_of_mem m hx)
    cases hrole : m.role <;>
      simp [serializeMessages, loadMessages, hrole, hm, ih ht]

/-- C8.  For a session whose persisted content was produced by a prior
save (so its rows are human/ai turns, and the in-memory history carried
no timestamps, as the program always has), loading the memory and saving
it back with zero new turns leaves the persisted row byte-identical: the
save returns True and the scoped query afterwards still finds exactly the
prior row. -/
theorem load_then_save_roundtrip (store : SessionStore) (s : String)
    (u : Nat) (msgs : List ChatMsg) (r : SessionRow)
    (hf : findSession store s u = some r)
    (hd : r.sessionData = some (sessionDataOf msgs))
    (ht : ∀ m ∈ msgs, m.kwTimestamp = none) :
    (saveSessionRun store s u (loadMemoryRun store s u false) false).1
        = true ∧
      findSession
        (saveSessionRun store s u (loadMemoryRun store s u false) false).2
        s u = some r := by
  have hload : loadMemoryRun store s u false =
      loadMessages (sessionDataOf msgs).messages := by
    simp [loadMemoryRun, hf, hd]
  have hsd : sessionDataOf (loadMemoryRun store s u false) =
      sessionDataOf msgs := by
    rw [hload]
    show sessionDataOf (loadMessages (serializeMessages msgs)) =
      sessionDataOf msgs
    rw [sessionDataOf, sessionDataOf, serialize_load_serialize msgs ht]
  refine ⟨by simp [saveSessionRun, hf], ?_⟩
  have h2 : (saveSessionRun store s u (loadMemoryRun store s u false)
      false).2 = updateFirstSession store s u (sessionDataOf msgs) := by
    simp [saveSessionRun, hf, hsd]
  have hr : { r with sessionData := some (sessionDataOf msgs) } = r := by
    cases r with
    | mk a b c =>
      simp only at hd
      rw [hd]
  rw [h2, findSession_update store s u _ r hf, hr]

/-- Witness for C8: a two-turn history previously saved for (s, user 1)
is loaded and saved back unchanged. -/
theorem load_then_save_roundtrip_witness :
    (findSession storeRoundtrip "s" 1 =
        some ⟨"s", 1, some (sessionDataOf msgsRoundtrip)⟩) ∧
      (∀ m ∈ msgsRoundtrip, m.kwTimestamp = none) ∧
      ((saveSessionRun storeRoundtrip "s" 1
          (loadMemoryRun storeRoundtrip "s" 1 false) false).1 = true ∧
        findSession
          (saveSessionRun storeRoundtrip "s" 1
            (loadMemoryRun storeRoundtrip "s" 1 false) false).2
          "s" 1 = some ⟨"s", 1, some (sessionDataOf msgsRoundtrip)⟩) :=
  ⟨by decide, by decide, load_then_save_roundtrip storeRoundtrip "s" 1
    msgsRoundtrip ⟨"s", 1, some (sessionDataOf msgsRoundtrip)⟩ (by decide)
    rfl (by decide)⟩

/-- embed_documents raises exactly when the provider fails on some
document of the batch. -/
theorem allEmbeds_eq_none_iff (f : String → Option (List ℚ))
    (ds : List String) :
    allEmbeds f ds = none ↔ ∃ d ∈ ds, f d = none := by
  induction ds with
  | nil => simp [allEmbeds]
  | cons d t ih =>
    cases hfd : f d with
    | none => simp [allEmbeds, hfd]
    | some e =>
      cases hat : allEmbeds f t with
      | none =>
        simp only [allEmbeds, hfd, hat, List.mem_cons]
        constructor
        · intro _
          obtain ⟨x, hx, hfx⟩ := ih.mp hat
          exact ⟨x, Or.inr hx, hfx⟩
        · intro _
          trivial
      | some es =>
        simp only [allEmbeds, hfd, hat, List.mem_cons]
        constructor
        · intro hc
          exact absurd hc (by simp)
        · rintro ⟨x, hx | hx, hfx⟩
          · rw [hx, hfd] at hfx
            exact absurd hfx (by simp)
          · have hnone := ih.mpr ⟨x, hx, hfx⟩
            rw [hat] at hnone
            exact absurd hnone (by simp)

/-- The batches concatenate back to the processed list (the fuel is at
least the length, so the auxiliary recursion never cuts off). -/
theorem batchesAux_flatten {α : Type} (fuel : Nat) (l : List α)
    (h : l.length ≤ fuel) : (batchesAux fuel l).flatten = l := by
  induction fuel generalizing l with
  | zero =>
    cases l with
    | nil => rfl
    | cons a t => simp at h
  | succ n ih =>
    cases l with
    | nil => rfl
    | cons a t =>
      simp only [batchesAux, List.flatten_cons]
      rw [ih ((a :: t).drop 10) ?_]
      · exact List.take_append_drop 10 (a :: t)
      · simp only [List.length_drop, List.length_cons]
        simp only [List.length_cons] at h
        omega

/-- The batches of a list concatenate back to the list. -/
theorem batches10_flatten {α : Type} (l : List α) :
    (batches10 l).flatten = l :=
  batchesAux_flatten l.length l (Nat.le_refl _)

/-- If some product of some batch fails to embed, the batch loop ends in
the raised state: no processed count is returned. -/
theorem goBatches_fail (f : String → Option (List ℚ))
    (bs : List (List PaintProduct)) (cnt : Nat) (table : List PaintProduct)
    (h : ∃ p, (∃ b ∈ bs, p ∈ b) ∧ f (createProductContent p) = none) :
    (goBatches f bs cnt table).1 = none := by
  induction bs generalizing cnt table with
  | nil =>
    obtain ⟨p, ⟨b, hb, -⟩, -⟩ := h
    exact absurd hb (List.not_mem_nil b)
  | cons b rest ih =>
    obtain ⟨p, ⟨b', hb', hpb'⟩, hfp⟩ := h
    cases hE : allEmbeds f (b.map createProductContent) with
    | none => simp [goBatches, hE]
    | some es =>
      rcases List.mem_cons.mp hb' with hbb | hrest
      · subst hbb
        have hcontra : allEmbeds f (b'.map createProductContent) = none :=
          (allEmbeds_eq_none_iff f _).mpr
            ⟨createProductContent p, List.mem_map_of_mem _ hpb', hfp⟩
        rw [hE] at hcontra
        exact absurd hcontra (by simp)
      · simp only [goBatches, hE]
        exact ih _ _ ⟨p, ⟨b', hrest, hpb'⟩, hfp⟩

/-- If every product of every batch embeds, the batch loop returns the
total number of products across the batches. -/
theorem goBatches_success (f : String → Option (List ℚ))
    (bs : List (List PaintProduct)) (cnt : Nat) (table : List PaintProduct)
    (h : ∀ p, (∃ b ∈ bs, p ∈ b) → f (createProductContent p) ≠ none) :
    (goBatches f bs cnt table).1 = some (cnt + bs.flatten.length) := by
  induction bs generalizing cnt table with
  | nil => simp [goBatches]
  | cons b rest ih =>
    cases hE : allEmbeds f (b.map createProductContent) with
    | none =>
      obtain ⟨d, hd, hfd⟩ := (allEmbeds_eq_none_iff f _).mp hE
      obtain ⟨p, hp, rfl⟩ := List.mem_map.mp hd
      exact absurd hfd (h p ⟨b, List.mem_cons_self b rest, hp⟩)
    | some es =>
      simp only [goBatches, hE]
      have hrest : ∀ p, (∃ b2 ∈ rest, p ∈ b2) →
          f (createProductContent p) ≠ none := by
        rintro p ⟨b2, hb2, hpb2⟩
        exact h p ⟨b2, List.mem_cons_of_mem b hb2, hpb2⟩
      rw [ih _ _ hrest]
      simp [List.flatten_cons, Nat.add_assoc]

/-- C4 counterexample.  Over a catalog of eleven products without
embeddings (two batches), a provider failure on the single product 1 ends
the whole run in the raised state with the table unchanged: products 2
through 11 — including the entire second batch, which the loop never
reaches — are left unprocessed, while the same run with a healthy
provider processes all 11.  One failing product does abort backfill for
the rest of the catalog. -/
theorem populate_failure_blocks_rest_cex :
    populateEmbeddings embedFailOnOne false tableEleven =
        (none, tableEleven) ∧
      (populateEmbeddings (fun _ => some [0]) false tableEleven).1 =
        some 11 := by
  decide

/-- C4 amended.  A per-product embedding failure inside a batch is not
caught per product: the enclosing handler rolls back the in-flight batch
and re-raises, so the run aborts (no processed count) whenever any
selected product fails to embed; only with no failures at all does the
run return the count of every selected product. -/
theorem populate_abort_semantics (embed : String → Option (List ℚ))
    (force : Bool) (table : List PaintProduct) :
    ((∃ p ∈ selectedProducts force table,
        embed (createProductContent p) = none) →
      (populateEmbeddings embed force table).1 = none) ∧
      ((∀ p ∈ selectedProducts force table,
          embed (createProductContent p) ≠ none) →
        (populateEmbeddings embed force table).1 =
          some (selectedProducts force table).length) := by
  constructor
  · rintro ⟨p, hp, hfail⟩
    refine goBatches_fail embed _ 0 table ⟨p, ?_, hfail⟩
    rw [← batches10_flatten (selectedProducts force table)] at hp
    exact List.mem_flatten.mp hp
  · intro hall
    rw [populateEmbeddings, goBatches_success embed _ 0 table ?_]
    · rw [batches10_flatten, Nat.zero_add]
    · intro p hpb
      refine hall p ?_
      rw [← batches10_flatten (selectedProducts force table)]
      exact List.mem_flatten.mpr hpb

/-- Witness for the amended C4: the failing-provider run over the
eleven-product catalog returns no count. -/
theorem populate_abort_semantics_witness :
    (∃ p ∈ selectedProducts false tableEleven,
        embedFailOnOne (createProductContent p) = none) ∧
      (populateEmbeddings embedFailOnOne false tableEleven).1 = none :=
  ⟨by decide, (populate_abort_semantics embedFailOnOne false tableEleven).1
    (by decide)⟩

end PaintCore
